import Mathlib

/-
Verification of the SSD1306 OLED I2C display driver (`python_ssd1306/state.py`),
shallowly embedded in Lean 4.

The driver is modelled as a pure state machine: a `DriverState` record holding
the geometry, configuration and the raw I2C byte buffer, together with
operations that return the updated state and the list of externally visible
`Event`s (I2C bus writes, reset-line changes, sleeps) they perform, in order.
Every definition mirrors the corresponding Python method of `_SSD1306` /
`SSD1306_I2C`; the pixel operations `set` / `get` / `fill` come from the
external `framebuf` dependency and are modelled from the specification.
-/

namespace SSD1306

/-- Command constant from the source: `SET_CONTRAST = 0x81`. -/
def SET_CONTRAST : Nat := 0x81

/-- Command constant from the source: `SET_ENTIRE_ON = 0xA4`. -/
def SET_ENTIRE_ON : Nat := 0xA4

/-- Command constant from the source: `SET_NORM_INV = 0xA6`. -/
def SET_NORM_INV : Nat := 0xA6

/-- Command constant from the source: `SET_DISP = 0xAE`. -/
def SET_DISP : Nat := 0xAE

/-- Command constant from the source: `SET_MEM_ADDR = 0x20`. -/
def SET_MEM_ADDR : Nat := 0x20

/-- Command constant from the source: `SET_COL_ADDR = 0x21`. -/
def SET_COL_ADDR : Nat := 0x21

/-- Command constant from the source: `SET_PAGE_ADDR = 0x22`. -/
def SET_PAGE_ADDR : Nat := 0x22

/-- Command constant from the source: `SET_DISP_START_LINE = 0x40`. -/
def SET_DISP_START_LINE : Nat := 0x40

/-- Command constant from the source: `SET_SEG_REMAP = 0xA0`. -/
def SET_SEG_REMAP : Nat := 0xA0

/-- Command constant from the source: `SET_MUX_RATIO = 0xA8` (renamed: Lean name restrictions). -/
def SET_MUX_RATIO_CMD : Nat := 0xA8

/-- Command constant from the source: `SET_COM_OUT_DIR = 0xC0`. -/
def SET_COM_OUT_DIR : Nat := 0xC0

/-- Command constant from the source: `SET_DISP_OFFSET = 0xD3`. -/
def SET_DISP_OFFSET : Nat := 0xD3

/-- Command constant from the source: `SET_COM_PIN_CFG = 0xDA`. -/
def SET_COM_PIN_CFG : Nat := 0xDA

/-- Command constant from the source: `SET_DISP_CLK_DIV = 0xD5`. -/
def SET_DISP_CLK_DIV : Nat := 0xD5

/-- Command constant from the source: `SET_PRECHARGE = 0xD9`. -/
def SET_PRECHARGE : Nat := 0xD9

/-- Command constant from the source: `SET_VCOM_DESEL = 0xDB`. -/
def SET_VCOM_DESEL : Nat := 0xDB

/-- Command constant from the source: `SET_CHARGE_PUMP = 0x8D`. -/
def SET_CHARGE_PUMP : Nat := 0x8D

/-- Externally visible effects of the driver: an `smbus.write_byte_data(addr, ctl, byte)`
call, a write to the reset line (`reset_pin.value = v`), and a `time.sleep` (in
milliseconds; the source sleeps 0.001 s and 0.010 s). -/
inductive Event where
  | i2cWrite (addr ctl byte : Nat)
  | setReset (v : Nat)
  | sleepMs (ms : Nat)
  deriving DecidableEq, Repr

/-- State of an `SSD1306_I2C` driver instance. `buffer` is the raw I2C byte
buffer of `SSD1306_I2C.__init__`: one framing byte followed by the
`(height // 8) * width` pixel bytes that the framebuffer memoryview
(`memoryview(self.buffer)[1:]`) exposes. -/
structure DriverState where
  width : Nat
  height : Nat
  pages : Nat
  external_vcc : Bool
  addr : Nat
  hasReset : Bool
  buffer : List Nat
  power : Bool
  deriving DecidableEq, Repr

/-- `SSD1306_I2C.write_cmd`: `self.i2c.write_byte_data(self.addr, 0x80, cmd)`. -/
def write_cmd (s : DriverState) (cmd : Nat) : List Event :=
  [Event.i2cWrite s.addr 0x80 cmd]

/-- `SSD1306_I2C.write_framebuf`: `for i in self.buffer[1:]: self.i2c.write_byte_data(self.addr, 0x40, i)`. -/
def write_framebuf (s : DriverState) : List Event :=
  (s.buffer.drop 1).map (fun b => Event.i2cWrite s.addr 0x40 b)

/-- `_SSD1306.poweroff`: `self.write_cmd(SET_DISP | 0x00); self._power = False`. -/
def poweroff (s : DriverState) : DriverState × List Event :=
  ({ s with power := false }, write_cmd s (SET_DISP ||| 0x00))

/-- `_SSD1306.contrast`: `self.write_cmd(SET_CONTRAST); self.write_cmd(contrast)`. -/
def contrast (s : DriverState) (c : Nat) : DriverState × List Event :=
  (s, write_cmd s SET_CONTRAST ++ write_cmd s c)

/-- `_SSD1306.invert`: `self.write_cmd(SET_NORM_INV | (invert & 1))`. -/
def invert (s : DriverState) (inv : Nat) : DriverState × List Event :=
  (s, write_cmd s (SET_NORM_INV ||| (inv &&& 1)))

/-- `_SSD1306.poweron`: when a reset pin exists, `value = 1; sleep(0.001);
value = 0; sleep(0.010); value = 1; sleep(0.010)`; then
`self.write_cmd(SET_DISP | 0x01); self._power = True`. -/
def poweron (s : DriverState) : DriverState × List Event :=
  let resetEvts :=
    if s.hasReset then
      [Event.setReset 1, Event.sleepMs 1, Event.setReset 0, Event.sleepMs 10,
       Event.setReset 1, Event.sleepMs 10]
    else []
  ({ s with power := true }, resetEvts ++ write_cmd s (SET_DISP ||| 0x01))

/-- `_SSD1306.show`: computes the column window (`+32` when width is 64,
`+28` when width is 72), sends the column- and page-address commands, then
streams the framebuffer. Returns the (unchanged) state, mirroring that the
method reads but never mutates the buffer. -/
def show_ (s : DriverState) : DriverState × List Event :=
  let xpos0 := 0
  let xpos1 := s.width - 1
  let xpos0 := if s.width == 64 then xpos0 + 32 else xpos0
  let xpos1 := if s.width == 64 then xpos1 + 32 else xpos1
  let xpos0 := if s.width == 72 then xpos0 + 28 else xpos0
  let xpos1 := if s.width == 72 then xpos1 + 28 else xpos1
  (s, write_cmd s SET_COL_ADDR ++ write_cmd s xpos0 ++ write_cmd s xpos1 ++
      write_cmd s SET_PAGE_ADDR ++ write_cmd s 0 ++ write_cmd s (s.pages - 1) ++
      write_framebuf s)

/-- Modelled from the spec: `fill(color)` of the external `framebuf` dependency
"sets every byte to 0x00 or 0xFF". In this driver the framebuffer is the
memoryview of the I2C buffer starting at index 1, so the framing byte at
index 0 is untouched. -/
def fill (s : DriverState) (color : Nat) : DriverState :=
  { s with buffer :=
      s.buffer.take 1 ++
        (s.buffer.drop 1).map (fun _ => if color == 0 then 0x00 else 0xFF) }

/-- Modelled from the spec: `set(x, y, color)` of the external `framebuf`
dependency computes "target byte index `= (y // 8) * width + x`, target bit
`= y % 8`; sets or clears that bit". The byte index is offset by 1 for the
I2C framing byte, since the framebuffer view starts at buffer index 1. -/
def setPixel (s : DriverState) (x y color : Nat) : DriverState :=
  let idx := (y / 8) * s.width + x + 1
  let old := s.buffer.getD idx 0
  let b :=
    if color == 0 then old &&& (0xFF ^^^ (1 <<< (y % 8)))
    else old ||| (1 <<< (y % 8))
  { s with buffer := s.buffer.set idx b }

/-- Modelled from the spec: `get(x, y)` of the external `framebuf` dependency
reads bit `y % 8` of byte `(y // 8) * width + x` (offset by 1 for the I2C
framing byte) and "returns 0 or 1". -/
def getPixel (s : DriverState) (x y : Nat) : Nat :=
  ((s.buffer.getD ((y / 8) * s.width + x + 1) 0) >>> (y % 8)) &&& 1

/-- The tuple of command bytes that the loop body of `_SSD1306.init_display`
iterates over, verbatim from the source. -/
def init_cmds (s : DriverState) : List Nat :=
  [SET_DISP ||| 0x00,
   SET_MEM_ADDR, 0x00,
   SET_DISP_START_LINE ||| 0x00,
   SET_SEG_REMAP ||| 0x01,
   SET_MUX_RATIO_CMD, s.height - 1,
   SET_COM_OUT_DIR ||| 0x08,
   SET_DISP_OFFSET, 0x00,
   SET_COM_PIN_CFG, if s.height == 32 || s.height == 16 then 0x02 else 0x12,
   SET_DISP_CLK_DIV, 0x80,
   SET_PRECHARGE, if s.external_vcc then 0x22 else 0xF1,
   SET_VCOM_DESEL, 0x30,
   SET_CONTRAST, 0xFF,
   SET_ENTIRE_ON,
   SET_NORM_INV,
   SET_CHARGE_PUMP, if s.external_vcc then 0x10 else 0x14,
   SET_DISP ||| 0x01]

/-- `_SSD1306.init_display`: writes every byte of `init_cmds` with `write_cmd`,
then the two extra commands `0xAD, 0x30` when width is 72, then `self.fill(0)`
and `self.show()`. -/
def init_display (s : DriverState) : DriverState × List Event :=
  let cmdEvts := (init_cmds s).flatMap (write_cmd s)
  let extra := if s.width == 72 then write_cmd s 0xAD ++ write_cmd s 0x30 else []
  let s1 := fill s 0
  ((show_ s1).1, cmdEvts ++ extra ++ (show_ s1).2)

/-- Construction: `SSD1306_I2C.__init__` allocates `bytearray((height // 8) * width + 1)`
(zero-filled), sets `buffer[0] = 0x40`, and calls `_SSD1306.__init__`, which
switches the reset pin to output low when present, sets `pages = height // 8`
and `_power = False`, then runs `self.poweron()` and `self.init_display()`. -/
def mkDriver (width height addr : Nat) (external_vcc hasReset : Bool) :
    DriverState × List Event :=
  let s0 : DriverState :=
    { width := width, height := height, pages := height / 8,
      external_vcc := external_vcc, addr := addr, hasReset := hasReset,
      buffer := 0x40 :: List.replicate ((height / 8) * width) 0,
      power := false }
  let resetInit := if hasReset then [Event.setReset 0] else []
  let p := poweron s0
  let d := init_display p.1
  (d.1, resetInit ++ p.2 ++ d.2)

/-- Construction with the source's default device address `addr=0x3C`. -/
def mkDriverDefault (width height : Nat) (external_vcc hasReset : Bool) :
    DriverState × List Event :=
  mkDriver width height 0x3C external_vcc hasReset

/-- The per-width column offset exactly as the spec words it: "+32 if
width==64, +28 if width==72, +0 otherwise". -/
def colShift (w : Nat) : Nat :=
  if w = 64 then 32 else if w = 72 then 28 else 0

/-- The command bytes of a trace: the payload of every bus write framed with
the command control byte 0x80. -/
def cmdBytes (tr : List Event) : List Nat :=
  tr.filterMap fun e =>
    match e with
    | Event.i2cWrite _ ctl b => if ctl = 0x80 then some b else none
    | _ => none

/-- Number of infix occurrences of `p` in `l` (counted by start position). -/
def countInfix (p l : List Nat) : Nat :=
  ((List.range (l.length + 1)).filter fun i => (l.drop i).take p.length == p).length

/-- A bus event is well framed for device address `a` when it is either not a
bus write at all, or a write to address `a` with control byte 0x80 (command)
or 0x40 (display data). -/
def busOk (a : Nat) : Event → Bool
  | Event.i2cWrite addr ctl _ => addr == a && (ctl == 0x80 || ctl == 0x40)
  | _ => true

end SSD1306

namespace SSD1306

/-! ## Helper lemmas -/

/-- Reading one bit as the source does (`>>> j &&& 1`) agrees with `Nat.testBit`. -/
theorem shiftRight_and_one (n j : Nat) : (n >>> j) &&& 1 = (n.testBit j).toNat := by
  rw [Nat.and_one_is_mod, Nat.shiftRight_eq_div_pow, Nat.testBit_to_div_mod]
  rcases Nat.mod_two_eq_zero_or_one (n / 2 ^ j) with h | h <;> simp [h]

/-- The pixel byte index addressed by in-bounds coordinates lies inside the
pixel area of the I2C buffer. -/
theorem pixel_index_lt (w h x y : Nat) (h8 : h % 8 = 0) (hx : x < w) (hy : y < h) :
    (y / 8) * w + x + 1 < (h / 8) * w + 1 := by
  have hdiv : y / 8 < h / 8 := by
    rw [Nat.div_lt_iff_lt_mul (by norm_num)]
    calc y < h := hy
    _ = h / 8 * 8 := (Nat.div_mul_cancel (Nat.dvd_of_mod_eq_zero h8)).symm
  have : (y / 8) * w + x + 1 ≤ (h / 8) * w := by
    calc (y / 8) * w + x + 1 ≤ (y / 8) * w + w := by omega
    _ = (y / 8 + 1) * w := by ring
    _ ≤ (h / 8) * w := Nat.mul_le_mul_right w hdiv
  omega

/-- A pattern longer than the searched list never occurs in it. -/
theorem countInfix_eq_zero (p l : List Nat) (hl : l.length < p.length) :
    countInfix p l = 0 := by
  unfold countInfix
  rw [List.length_eq_zero]
  rw [List.filter_eq_nil_iff]
  intro i _
  simp only [Bool.not_eq_true, beq_eq_false_iff_ne, ne_eq]
  intro e
  have : ((l.drop i).take p.length).length = p.length := by rw [e]
  simp only [List.length_take, List.length_drop] at this
  omega

/-- The data portion of a `show_` trace is exactly the pixel bytes of the
buffer, in storage order, each framed as display data. -/
theorem show_drop6 (s : DriverState) :
    (show_ s).2.drop 6 = (s.buffer.drop 1).map (Event.i2cWrite s.addr 0x40) := by
  simp [show_, write_cmd, write_framebuf]

/-- The first six events of a `show_` trace are the window-setting commands. -/
theorem show_take6 (s : DriverState) :
    (show_ s).2.take 6 =
      ([SET_COL_ADDR, colShift s.width, s.width - 1 + colShift s.width,
        SET_PAGE_ADDR, 0, s.pages - 1]).map (Event.i2cWrite s.addr 0x80) := by
  by_cases h64 : s.width = 64
  · simp [show_, write_cmd, colShift, h64]
  · by_cases h72 : s.width = 72
    · simp [show_, write_cmd, colShift, h64, h72]
    · simp [show_, write_cmd, colShift, h64, h72]

/-- A `show_` trace splits into the six window commands and the data stream. -/
theorem show_trace_eq (s : DriverState) :
    (show_ s).2 =
      ([SET_COL_ADDR, colShift s.width, s.width - 1 + colShift s.width,
        SET_PAGE_ADDR, 0, s.pages - 1]).map (Event.i2cWrite s.addr 0x80)
      ++ (s.buffer.drop 1).map (Event.i2cWrite s.addr 0x40) := by
  have h := show_take6 s
  have h2 := show_drop6 s
  rw [← h, ← h2]
  exact (List.take_append_drop 6 (show_ s).2).symm

end SSD1306

namespace SSD1306

/-! ## Claim theorems -/

/-- C1: for every (width, height) geometry and every value of the
external-power flag, `init_display` sends exactly the command byte sequence of
spec section 4.2 steps 1 to 16 in order (0xAE; 0x20, 0x00; 0x40; 0xA1; 0xA8,
height-1; 0xC8; 0xD3, 0x00; 0xDA, X with X = 0x02 if height is 16 or 32 else
0x12; 0xD5, 0x80; 0xD9, Y with Y = 0x22 when the external-power flag is set
else 0xF1; 0xDB, 0x30; 0x81, 0xFF; 0xA4; 0xA6; 0x8D, Z with Z = 0x10 when the
external-power flag is set else 0x14; 0xAF), followed by the two extra
commands 0xAD, 0x30 exactly when width = 72, and then fills the buffer with 0
and performs one `show_`. -/
theorem init_display_spec (w h a : Nat) (ev hr pw : Bool) (buf : List Nat) :
    (init_display ⟨w, h, h / 8, ev, a, hr, buf, pw⟩).2 =
      ([0xAE, 0x20, 0x00, 0x40, 0xA1, 0xA8, h - 1, 0xC8, 0xD3, 0x00,
        0xDA, if h = 16 ∨ h = 32 then 0x02 else 0x12,
        0xD5, 0x80,
        0xD9, if ev then 0x22 else 0xF1,
        0xDB, 0x30, 0x81, 0xFF, 0xA4, 0xA6,
        0x8D, if ev then 0x10 else 0x14, 0xAF]
        ++ (if w = 72 then [0xAD, 0x30] else [])).map (Event.i2cWrite a 0x80)
      ++ (show_ (fill ⟨w, h, h / 8, ev, a, hr, buf, pw⟩ 0)).2 ∧
    (init_display ⟨w, h, h / 8, ev, a, hr, buf, pw⟩).1 =
      fill ⟨w, h, h / 8, ev, a, hr, buf, pw⟩ 0 ∧
    (fill ⟨w, h, h / 8, ev, a, hr, buf, pw⟩ 0).buffer.drop 1 =
      List.replicate (buf.length - 1) 0 := by
  refine ⟨?_, ?_, ?_⟩
  · by_cases h16 : h = 16 <;> by_cases h32 : h = 32 <;> by_cases w72 : w = 72 <;>
      cases ev <;>
      simp [init_display, init_cmds, write_cmd, h16, h32, w72,
        SET_DISP, SET_MEM_ADDR, SET_DISP_START_LINE, SET_SEG_REMAP,
        SET_MUX_RATIO_CMD, SET_COM_OUT_DIR, SET_DISP_OFFSET, SET_COM_PIN_CFG,
        SET_DISP_CLK_DIV, SET_PRECHARGE, SET_VCOM_DESEL, SET_CONTRAST,
        SET_ENTIRE_ON, SET_NORM_INV, SET_CHARGE_PUMP]
  · rfl
  · simp [fill, List.map_const']
    cases buf <;> simp

end SSD1306

namespace SSD1306

/-- C2: every `show_` first sends the column-address command 0x21 with bytes
xpos0, xpos1 and then the page-address command 0x22 with bytes 0, pages-1,
where the column window [xpos0, xpos1] is [0, width-1] shifted by +32 when
width = 64, by +28 when width = 72, and by +0 otherwise; in particular on
128x64 the column window is [0, 127] and the page window is [0, 7], on 64x48
the column window is [32, 95], and on 72x40 it is [28, 99]. -/
theorem show_window_spec :
    (∀ s : DriverState,
      (show_ s).2 =
        ([0x21, colShift s.width, s.width - 1 + colShift s.width,
          0x22, 0, s.pages - 1]).map (Event.i2cWrite s.addr 0x80)
        ++ write_framebuf s) ∧
    (show_ (mkDriver 128 64 0x3C false false).1).2.take 6 =
      [0x21, 0, 127, 0x22, 0, 7].map (Event.i2cWrite 0x3C 0x80) ∧
    (show_ (mkDriver 64 48 0x3C false false).1).2.take 6 =
      [0x21, 32, 95, 0x22, 0, 5].map (Event.i2cWrite 0x3C 0x80) ∧
    (show_ (mkDriver 72 40 0x3C false false).1).2.take 6 =
      [0x21, 28, 99, 0x22, 0, 4].map (Event.i2cWrite 0x3C 0x80) := by
  refine ⟨?_, ?_, ?_, ?_⟩
  · intro s
    have h := show_trace_eq s
    simpa [SET_COL_ADDR, SET_PAGE_ADDR, write_framebuf] using h
  · rw [show_take6]; rfl
  · rw [show_take6]; rfl
  · rw [show_take6]; rfl

end SSD1306

namespace SSD1306

/-- C3: after the six window-setting command events, `show_` streams exactly
pages x width data-mode bytes equal to the pixel buffer contents in storage
order; the serialized pixel byte stream has length exactly pages x width and
is unchanged across repeated `show_` calls with no intervening mutation. -/
theorem show_data_spec (s : DriverState)
    (hlen : s.buffer.length = s.pages * s.width + 1) :
    (show_ s).2.drop 6 = (s.buffer.drop 1).map (Event.i2cWrite s.addr 0x40) ∧
    ((show_ s).2.drop 6).length = s.pages * s.width ∧
    (show_ s).1 = s ∧
    (show_ ((show_ s).1)).2 = (show_ s).2 := by
  refine ⟨show_drop6 s, ?_, rfl, rfl⟩
  rw [show_drop6 s]
  simp [hlen]

/-- Witness for C3 at a concrete 2x8 driver state. -/
theorem show_data_spec_witness :
    (show_ ⟨2, 8, 1, false, 0x3C, false, [0x40, 7, 9], false⟩).2.drop 6 =
      [Event.i2cWrite 0x3C 0x40 7, Event.i2cWrite 0x3C 0x40 9] ∧
    ((show_ ⟨2, 8, 1, false, 0x3C, false, [0x40, 7, 9], false⟩).2.drop 6).length = 1 * 2 := by
  have h := show_data_spec ⟨2, 8, 1, false, 0x3C, false, [0x40, 7, 9], false⟩ (by decide)
  exact ⟨h.1, h.2.1⟩

end SSD1306

namespace SSD1306

set_option maxRecDepth 40000 in
/-- C4: for every constructed driver, `poweroff` sends exactly the single
command byte 0xAE and sets the power query to false, `poweron` sends exactly
the single command byte 0xAF (preceded by the reset pulse when a reset line
exists) and sets the power query to true; the command bytes of a
poweroff-then-poweron pair are exactly [0xAE, 0xAF], which contain no
occurrence of the 16-step initialization command sequence, while the
construction trace of a 128x64 driver contains it exactly once. -/
theorem power_cycle_spec (w h a : Nat) (ev hr : Bool) :
    (poweroff (mkDriver w h a ev hr).1).2 = [Event.i2cWrite a 0x80 0xAE] ∧
    (poweroff (mkDriver w h a ev hr).1).1.power = false ∧
    (poweron (poweroff (mkDriver w h a ev hr).1).1).2 =
      (if hr then
        [Event.setReset 1, Event.sleepMs 1, Event.setReset 0, Event.sleepMs 10,
         Event.setReset 1, Event.sleepMs 10]
       else []) ++ [Event.i2cWrite a 0x80 0xAF] ∧
    (poweron (poweroff (mkDriver w h a ev hr).1).1).1.power = true ∧
    cmdBytes ((poweroff (mkDriver w h a ev hr).1).2 ++
              (poweron (poweroff (mkDriver w h a ev hr).1).1).2) = [0xAE, 0xAF] ∧
    countInfix (init_cmds (mkDriver w h a ev hr).1)
      (cmdBytes ((poweroff (mkDriver w h a ev hr).1).2 ++
                 (poweron (poweroff (mkDriver w h a ev hr).1).1).2)) = 0 ∧
    countInfix (init_cmds (mkDriver 128 64 0x3C false false).1)
      (cmdBytes (mkDriver 128 64 0x3C false false).2) = 1 := by
  have haddr : (mkDriver w h a ev hr).1.addr = a := by
    simp [mkDriver, init_display, poweron, fill, show_]
  have hhr : (mkDriver w h a ev hr).1.hasReset = hr := by
    simp [mkDriver, init_display, poweron, fill, show_]
  have hoff : (poweroff (mkDriver w h a ev hr).1).2 = [Event.i2cWrite a 0x80 0xAE] := by
    simp [poweroff, write_cmd, haddr, SET_DISP]
  have hon : (poweron (poweroff (mkDriver w h a ev hr).1).1).2 =
      (if hr then
        [Event.setReset 1, Event.sleepMs 1, Event.setReset 0, Event.sleepMs 10,
         Event.setReset 1, Event.sleepMs 10]
       else []) ++ [Event.i2cWrite a 0x80 0xAF] := by
    simp [poweron, poweroff, write_cmd, haddr, hhr, SET_DISP]
  have hpair : cmdBytes ((poweroff (mkDriver w h a ev hr).1).2 ++
      (poweron (poweroff (mkDriver w h a ev hr).1).1).2) = [0xAE, 0xAF] := by
    rw [hoff, hon]
    cases hr <;> simp [cmdBytes]
  refine ⟨hoff, rfl, hon, rfl, hpair, ?_, by decide⟩
  rw [hpair]
  apply countInfix_eq_zero
  simp [init_cmds]

end SSD1306

namespace SSD1306

/-- C5: when a reset line is present, every `poweron` (and in particular the
one run at construction) drives the reset line low, waits at least 1 ms,
drives it high, and waits at least 10 ms, immediately before issuing the
display-on command 0xAF. -/
theorem reset_pulse_spec (w h a : Nat) (ev : Bool) (s : DriverState)
    (hr : s.hasReset = true) :
    (∃ ms1 ms2 pre post, 1 ≤ ms1 ∧ 10 ≤ ms2 ∧
      (poweron s).2 =
        pre ++ [Event.setReset 0, Event.sleepMs ms1, Event.setReset 1,
                Event.sleepMs ms2, Event.i2cWrite s.addr 0x80 0xAF] ++ post) ∧
    (∃ ms1 ms2 pre post, 1 ≤ ms1 ∧ 10 ≤ ms2 ∧
      (mkDriver w h a ev true).2 =
        pre ++ [Event.setReset 0, Event.sleepMs ms1, Event.setReset 1,
                Event.sleepMs ms2, Event.i2cWrite a 0x80 0xAF] ++ post) := by
  constructor
  · refine ⟨10, 10, [Event.setReset 1, Event.sleepMs 1], [], by norm_num, by norm_num, ?_⟩
    simp [poweron, write_cmd, hr, SET_DISP]
  · refine ⟨10, 10, [Event.setReset 0, Event.setReset 1, Event.sleepMs 1],
      (init_display ((poweron ⟨w, h, h / 8, ev, a, true,
        0x40 :: List.replicate ((h / 8) * w) 0, false⟩).1)).2,
      by norm_num, by norm_num, ?_⟩
    simp [mkDriver, poweron, write_cmd, SET_DISP]

/-- Witness for C5: a concrete 128x64 driver state with a reset line. -/
theorem reset_pulse_spec_witness :
    (∃ ms1 ms2 pre post, 1 ≤ ms1 ∧ 10 ≤ ms2 ∧
      (poweron (mkDriver 128 64 0x3C false true).1).2 =
        pre ++ [Event.setReset 0, Event.sleepMs ms1, Event.setReset 1,
                Event.sleepMs ms2,
                Event.i2cWrite (mkDriver 128 64 0x3C false true).1.addr 0x80 0xAF] ++ post) ∧
    (∃ ms1 ms2 pre post, 1 ≤ ms1 ∧ 10 ≤ ms2 ∧
      (mkDriver 128 64 0x3C false true).2 =
        pre ++ [Event.setReset 0, Event.sleepMs ms1, Event.setReset 1,
                Event.sleepMs ms2, Event.i2cWrite 0x3C 0x80 0xAF] ++ post) :=
  reset_pulse_spec 128 64 0x3C false (mkDriver 128 64 0x3C false true).1 rfl

/-- C6: `invert` sends exactly the single command byte `0xA6 ||| (flag &&& 1)`,
which for a boolean flag value (0 or 1) is `0xA6 ||| flag` — in particular
0xA7 for flag 1 and 0xA6 for flag 0 — and never changes the pixel buffer. -/
theorem invert_spec (s : DriverState) (f : Nat) :
    (invert s f).2 = [Event.i2cWrite s.addr 0x80 (0xA6 ||| (f &&& 1))] ∧
    (f = 0 ∨ f = 1 → (invert s f).2 = [Event.i2cWrite s.addr 0x80 (0xA6 ||| f)]) ∧
    (invert s f).1.buffer = s.buffer := by
  refine ⟨rfl, ?_, rfl⟩
  rintro (rfl | rfl) <;> rfl

/-- Witness for C6 at flag values 1 and 0 on a concrete state. -/
theorem invert_spec_witness :
    (invert ⟨2, 8, 1, false, 0x3C, false, [0x40, 7, 9], false⟩ 1).2 =
      [Event.i2cWrite 0x3C 0x80 0xA7] ∧
    (invert ⟨2, 8, 1, false, 0x3C, false, [0x40, 7, 9], false⟩ 0).2 =
      [Event.i2cWrite 0x3C 0x80 0xA6] := by
  constructor
  · exact (invert_spec ⟨2, 8, 1, false, 0x3C, false, [0x40, 7, 9], false⟩ 1).2.1 (Or.inr rfl)
  · exact (invert_spec ⟨2, 8, 1, false, 0x3C, false, [0x40, 7, 9], false⟩ 0).2.1 (Or.inl rfl)

end SSD1306

namespace SSD1306

/-- Setting a bit makes that bit read back as one. -/
theorem testBit_set_same (old j : Nat) : (old ||| (1 <<< j)).testBit j = true := by
  rw [Nat.one_shiftLeft, Nat.testBit_or, Nat.testBit_two_pow_self]
  simp

/-- Clearing a bit with the byte mask makes that bit read back as zero. -/
theorem testBit_clear_same (old j : Nat) (hj : j < 8) :
    (old &&& (0xFF ^^^ (1 <<< j))).testBit j = false := by
  have h255 : (0xFF : Nat) = 2 ^ 8 - 1 := by norm_num
  rw [Nat.testBit_and, Nat.one_shiftLeft, h255, Nat.testBit_xor,
    Nat.testBit_two_pow_sub_one, Nat.testBit_two_pow_self]
  simp [hj]

/-- Setting bit `j` leaves every other bit of the byte unchanged. -/
theorem testBit_set_other (old j j2 : Nat) (hne : j ≠ j2) :
    (old ||| (1 <<< j)).testBit j2 = old.testBit j2 := by
  rw [Nat.one_shiftLeft, Nat.testBit_or, Nat.testBit_two_pow]
  simp [hne]

/-- Clearing bit `j` with the byte mask leaves every other bit below 8 unchanged. -/
theorem testBit_clear_other (old j j2 : Nat) (hj2 : j2 < 8) (hne : j ≠ j2) :
    (old &&& (0xFF ^^^ (1 <<< j))).testBit j2 = old.testBit j2 := by
  have h255 : (0xFF : Nat) = 2 ^ 8 - 1 := by norm_num
  rw [Nat.testBit_and, Nat.one_shiftLeft, h255, Nat.testBit_xor,
    Nat.testBit_two_pow_sub_one, Nat.testBit_two_pow]
  simp [hj2, hne]


/-- Writing a bit (set or clear, per the color test) leaves every other bit
below 8 unchanged. -/
theorem testBit_write_other (old j j2 c : Nat) (hj2 : j2 < 8) (hne : j ≠ j2) :
    (if c == 0 then old &&& (0xFF ^^^ (1 <<< j))
     else old ||| (1 <<< j)).testBit j2 = old.testBit j2 := by
  rcases Bool.eq_false_or_eq_true (c == 0) with h | h <;>
    simp [h, testBit_clear_other old j j2 hj2 hne, testBit_set_other old j j2 hne]

/-- C7: for in-bounds coordinates, a pixel written with `setPixel` reads back
with `getPixel` as written (1 stays 1, 0 stays 0); every other in-bounds pixel
is unchanged, and the only storage location `setPixel` touches is bit
`y % 8` of byte `(y / 8) * width + x` of the pixel area, i.e. index
`(y / 8) * width + x + 1` of the raw I2C buffer. -/
theorem set_get_spec (s : DriverState) (x y c : Nat)
    (hlen : s.buffer.length = (s.height / 8) * s.width + 1)
    (h8 : s.height % 8 = 0) (hx : x < s.width) (hy : y < s.height) :
    getPixel (setPixel s x y 1) x y = 1 ∧
    getPixel (setPixel s x y 0) x y = 0 ∧
    (∀ x2 y2, x2 < s.width → y2 < s.height → ¬(x2 = x ∧ y2 = y) →
      getPixel (setPixel s x y c) x2 y2 = getPixel s x2 y2) ∧
    (∀ i, i ≠ (y / 8) * s.width + x + 1 →
      (setPixel s x y c).buffer[i]? = s.buffer[i]?) := by
  have hidx : (y / 8) * s.width + x + 1 < s.buffer.length := by
    rw [hlen]; exact pixel_index_lt s.width s.height x y h8 hx hy
  have hset : ∀ b : Nat,
      (s.buffer.set ((y / 8) * s.width + x + 1) b).getD ((y / 8) * s.width + x + 1) 0 = b := by
    intro b
    rw [List.getD_eq_getElem?_getD, List.getElem?_set_eq_of_lt b hidx]
    rfl
  have hj : y % 8 < 8 := Nat.mod_lt y (by norm_num)
  refine ⟨?_, ?_, ?_, ?_⟩
  · show ((s.buffer.set ((y / 8) * s.width + x + 1)
        ((s.buffer.getD ((y / 8) * s.width + x + 1) 0) ||| (1 <<< (y % 8)))).getD
        ((y / 8) * s.width + x + 1) 0 >>> (y % 8)) &&& 1 = 1
    rw [hset, shiftRight_and_one, testBit_set_same]
    rfl
  · show ((s.buffer.set ((y / 8) * s.width + x + 1)
        ((s.buffer.getD ((y / 8) * s.width + x + 1) 0) &&&
          (0xFF ^^^ (1 <<< (y % 8))))).getD
        ((y / 8) * s.width + x + 1) 0 >>> (y % 8)) &&& 1 = 0
    rw [hset, shiftRight_and_one, testBit_clear_same _ _ hj]
    rfl
  · intro x2 y2 hx2 hy2 hne
    by_cases heq : (y2 / 8) * s.width + x2 = (y / 8) * s.width + x
    · have hw : 0 < s.width := by omega
      have hxx : x2 = x := by
        have h1 : ((y2 / 8) * s.width + x2) % s.width = x2 := by
          rw [Nat.mul_comm, Nat.mul_add_mod]
          exact Nat.mod_eq_of_lt hx2
        have h2 : ((y / 8) * s.width + x) % s.width = x := by
          rw [Nat.mul_comm, Nat.mul_add_mod]
          exact Nat.mod_eq_of_lt hx
        rw [← h1, heq, h2]
      have hq : y2 / 8 = y / 8 := by
        have hmul : (y2 / 8) * s.width = (y / 8) * s.width := by omega
        exact Nat.eq_of_mul_eq_mul_right hw hmul
      have hbit : y % 8 ≠ y2 % 8 := by
        intro e
        exact hne ⟨hxx, by omega⟩
      have heq1 : (y2 / 8) * s.width + x2 + 1 = (y / 8) * s.width + x + 1 := by omega
      have hj2 : y2 % 8 < 8 := Nat.mod_lt y2 (by norm_num)
      show ((s.buffer.set ((y / 8) * s.width + x + 1)
          (if c == 0 then
            (s.buffer.getD ((y / 8) * s.width + x + 1) 0) &&& (0xFF ^^^ (1 <<< (y % 8)))
           else
            (s.buffer.getD ((y / 8) * s.width + x + 1) 0) ||| (1 <<< (y % 8)))).getD
          ((y2 / 8) * s.width + x2 + 1) 0 >>> (y2 % 8)) &&& 1 =
        (s.buffer.getD ((y2 / 8) * s.width + x2 + 1) 0 >>> (y2 % 8)) &&& 1
      rw [heq1, hset, shiftRight_and_one, shiftRight_and_one]
      congr 1
      exact testBit_write_other _ _ _ _ hj2 hbit
    · have hne1 : (y / 8) * s.width + x + 1 ≠ (y2 / 8) * s.width + x2 + 1 := by omega
      show ((s.buffer.set ((y / 8) * s.width + x + 1)
          (if c == 0 then
            (s.buffer.getD ((y / 8) * s.width + x + 1) 0) &&& (0xFF ^^^ (1 <<< (y % 8)))
           else
            (s.buffer.getD ((y / 8) * s.width + x + 1) 0) ||| (1 <<< (y % 8)))).getD
          ((y2 / 8) * s.width + x2 + 1) 0 >>> (y2 % 8)) &&& 1 =
        (s.buffer.getD ((y2 / 8) * s.width + x2 + 1) 0 >>> (y2 % 8)) &&& 1
      rw [List.getD_eq_getElem?_getD, List.getD_eq_getElem?_getD,
        List.getElem?_set_ne hne1, ← List.getD_eq_getElem?_getD]
  · intro i hi
    show (s.buffer.set ((y / 8) * s.width + x + 1) _)[i]? = s.buffer[i]?
    exact List.getElem?_set_ne (Ne.symm hi)

/-- Witness for C7 on a concrete 2x8 driver state at (x, y) = (1, 3). -/
theorem set_get_spec_witness :
    getPixel (setPixel ⟨2, 8, 1, false, 0x3C, false, [0x40, 7, 9], false⟩ 1 3 1) 1 3 = 1 ∧
    getPixel (setPixel ⟨2, 8, 1, false, 0x3C, false, [0x40, 7, 9], false⟩ 1 3 0) 1 3 = 0 ∧
    getPixel (setPixel ⟨2, 8, 1, false, 0x3C, false, [0x40, 7, 9], false⟩ 1 3 1) 0 5 =
      getPixel ⟨2, 8, 1, false, 0x3C, false, [0x40, 7, 9], false⟩ 0 5 := by
  have h := set_get_spec ⟨2, 8, 1, false, 0x3C, false, [0x40, 7, 9], false⟩ 1 3 1
    (by decide) (by decide) (by decide) (by decide)
  exact ⟨h.1, (set_get_spec ⟨2, 8, 1, false, 0x3C, false, [0x40, 7, 9], false⟩ 1 3 0
    (by decide) (by decide) (by decide) (by decide)).2.1,
    h.2.2.1 0 5 (by decide) (by decide) (by decide)⟩

end SSD1306

namespace SSD1306

/-- Reading any position of a constant-zero mapped list yields zero. -/
theorem getD_map_zero (l : List Nat) (i : Nat) :
    (l.map (fun _ => (0 : Nat))).getD i 0 = 0 := by
  rw [List.getD_eq_getElem?_getD, List.getElem?_map]
  cases l[i]? <;> simp

/-- Reading an in-range position of a constant mapped list yields the constant. -/
theorem getD_map_const (l : List Nat) (i v : Nat) (h : i < l.length) :
    (l.map (fun _ => v)).getD i 0 = v := by
  rw [List.getD_eq_getElem?_getD, List.getElem?_map, List.getElem?_eq_getElem h]
  rfl

/-- C8: after `fill s 0` every byte of the pixel area is 0x00 and `getPixel`
returns 0 at every in-bounds coordinate; after `fill s 1` every byte is 0xFF
and `getPixel` returns 1 at every in-bounds coordinate; `fill` never changes
the buffer length. -/
theorem fill_spec (s : DriverState)
    (hlen : s.buffer.length = (s.height / 8) * s.width + 1)
    (h8 : s.height % 8 = 0) :
    (∀ b ∈ (fill s 0).buffer.drop 1, b = 0x00) ∧
    (∀ x y, x < s.width → y < s.height → getPixel (fill s 0) x y = 0) ∧
    (∀ b ∈ (fill s 1).buffer.drop 1, b = 0xFF) ∧
    (∀ x y, x < s.width → y < s.height → getPixel (fill s 1) x y = 1) ∧
    (∀ c, (fill s c).buffer.length = s.buffer.length) := by
  obtain ⟨hd, tl, hb⟩ : ∃ hd tl, s.buffer = hd :: tl := by
    cases hbuf : s.buffer with
    | nil => rw [hbuf] at hlen; simp at hlen
    | cons hd tl => exact ⟨hd, tl, rfl⟩
  have htl : tl.length = (s.height / 8) * s.width := by
    rw [hb] at hlen; simp at hlen; omega
  have hf0 : (fill s 0).buffer = hd :: tl.map (fun _ => 0x00) := by
    simp [fill, hb]
  have hf1 : (fill s 1).buffer = hd :: tl.map (fun _ => 0xFF) := by
    simp [fill, hb]
  refine ⟨?_, ?_, ?_, ?_, ?_⟩
  · rw [hf0]
    simp
  · intro x y hx hy
    show ((fill s 0).buffer.getD ((y / 8) * s.width + x + 1) 0 >>> (y % 8)) &&& 1 = 0
    rw [hf0, List.getD_cons_succ, getD_map_zero]
    simp
  · rw [hf1]
    simp
  · intro x y hx hy
    have hidx : (y / 8) * s.width + x < tl.length := by
      rw [htl]
      have := pixel_index_lt s.width s.height x y h8 hx hy
      omega
    have hj : y % 8 < 8 := Nat.mod_lt y (by norm_num)
    show ((fill s 1).buffer.getD ((y / 8) * s.width + x + 1) 0 >>> (y % 8)) &&& 1 = 1
    rw [hf1, List.getD_cons_succ, getD_map_const _ _ _ hidx, shiftRight_and_one]
    have h255 : (0xFF : Nat) = 2 ^ 8 - 1 := by norm_num
    rw [h255, Nat.testBit_two_pow_sub_one]
    simp [hj]
  · intro c
    simp [fill, hb]

/-- Witness for C8 on a concrete 2x8 driver state. -/
theorem fill_spec_witness :
    getPixel (fill ⟨2, 8, 1, false, 0x3C, false, [0x40, 7, 9], false⟩ 0) 1 3 = 0 ∧
    getPixel (fill ⟨2, 8, 1, false, 0x3C, false, [0x40, 7, 9], false⟩ 1) 1 3 = 1 ∧
    (fill ⟨2, 8, 1, false, 0x3C, false, [0x40, 7, 9], false⟩ 1).buffer.length = 3 := by
  have h := fill_spec ⟨2, 8, 1, false, 0x3C, false, [0x40, 7, 9], false⟩ (by decide) (by decide)
  exact ⟨h.2.1 1 3 (by decide) (by decide), h.2.2.2.1 1 3 (by decide) (by decide),
    h.2.2.2.2 1⟩

end SSD1306

namespace SSD1306

/-- C9: the I2C buffer of a constructed driver has length
`(height / 8) * width + 1` with first byte 0x40; no driver operation changes
the first byte or the length (pixel operations act from index 1 up); and the
data portion of every `show_` trace is exactly the `pages * width` pixel
bytes, never the framing byte. -/
theorem framing_invariant_spec (w h a : Nat) (ev hr : Bool) :
    (mkDriver w h a ev hr).1.buffer.length = (h / 8) * w + 1 ∧
    (mkDriver w h a ev hr).1.buffer[0]? = some 0x40 ∧
    (∀ s : DriverState, ∀ x y c, (setPixel s x y c).buffer.length = s.buffer.length ∧
        (setPixel s x y c).buffer[0]? = s.buffer[0]?) ∧
    (∀ s : DriverState, ∀ c, (fill s c).buffer.length = s.buffer.length ∧
        (fill s c).buffer[0]? = s.buffer[0]?) ∧
    (∀ s : DriverState, (show_ s).1 = s ∧ (poweron s).1.buffer = s.buffer ∧
        (poweroff s).1.buffer = s.buffer ∧ (∀ f, (invert s f).1.buffer = s.buffer) ∧
        (∀ c, (contrast s c).1.buffer = s.buffer)) ∧
    (∀ s : DriverState,
        (show_ s).2.drop 6 = (s.buffer.drop 1).map (Event.i2cWrite s.addr 0x40)) ∧
    (∀ s : DriverState, ((show_ s).2.drop 6).length = s.buffer.length - 1) ∧
    ((show_ (mkDriver w h a ev hr).1).2.drop 6).length = (h / 8) * w := by
  have hbuf : (mkDriver w h a ev hr).1.buffer = 0x40 :: List.replicate ((h / 8) * w) 0 := by
    simp [mkDriver, init_display, poweron, fill, show_, List.map_const']
  refine ⟨?_, ?_, ?_, ?_, ?_, ?_, ?_, ?_⟩
  · rw [hbuf]; simp
  · rw [hbuf]; simp
  · intro s x y c
    refine ⟨by simp [setPixel], ?_⟩
    show (s.buffer.set ((y / 8) * s.width + x + 1) _)[0]? = s.buffer[0]?
    exact List.getElem?_set_ne (by omega)
  · intro s c
    constructor
    · simp [fill]
      omega
    · cases hbf : s.buffer <;> simp [fill, hbf]
  · intro s
    exact ⟨rfl, rfl, rfl, fun f => rfl, fun c => rfl⟩
  · exact show_drop6
  · intro s
    rw [show_drop6]
    simp
  · rw [show_drop6, hbuf]
    simp

/-- Helper: a bus write with control byte 0x80 or 0x40 to its own address is
well framed. -/
theorem busOk_i2c (a ctl b : Nat) (h : ctl = 0x80 ∨ ctl = 0x40) :
    busOk a (Event.i2cWrite a ctl b) = true := by
  rcases h with rfl | rfl <;> simp [busOk]

/-- Helper: every event of `write_cmd` is a command write to the driver address. -/
theorem busOk_write_cmd (s : DriverState) (c : Nat) (e : Event)
    (he : e ∈ write_cmd s c) : busOk s.addr e = true := by
  rw [write_cmd, List.mem_singleton] at he
  subst he
  exact busOk_i2c _ _ _ (Or.inl rfl)

/-- Helper: every event of `write_framebuf` is a data write to the driver address. -/
theorem busOk_write_framebuf (s : DriverState) (e : Event)
    (he : e ∈ write_framebuf s) : busOk s.addr e = true := by
  rw [write_framebuf, List.mem_map] at he
  obtain ⟨b, _, rfl⟩ := he
  exact busOk_i2c _ _ _ (Or.inr rfl)

/-- Helper: every event of a `show_` trace is well framed. -/
theorem busOk_show (s : DriverState) (e : Event)
    (he : e ∈ (show_ s).2) : busOk s.addr e = true := by
  rw [show_trace_eq, List.mem_append] at he
  rcases he with he | he
  · rw [List.mem_map] at he
    obtain ⟨b, _, rfl⟩ := he
    exact busOk_i2c _ _ _ (Or.inl rfl)
  · rw [List.mem_map] at he
    obtain ⟨b, _, rfl⟩ := he
    exact busOk_i2c _ _ _ (Or.inr rfl)

/-- Helper: every event of a `poweron` trace is well framed. -/
theorem busOk_poweron (s : DriverState) (e : Event)
    (he : e ∈ (poweron s).2) : busOk s.addr e = true := by
  simp only [poweron] at he
  rw [List.mem_append] at he
  rcases he with he | he
  · by_cases hr : s.hasReset = true
    · simp only [hr, if_true, List.mem_cons] at he
      rcases he with rfl | rfl | rfl | rfl | rfl | he <;> try rfl
      simp at he
      subst he
      rfl
    · simp [hr] at he
  · exact busOk_write_cmd s _ e he

/-- Helper: every event of an `init_display` trace is well framed. -/
theorem busOk_init_display (s : DriverState) (e : Event)
    (he : e ∈ (init_display s).2) : busOk s.addr e = true := by
  simp only [init_display] at he
  rw [List.mem_append, List.mem_append] at he
  rcases he with (he | he) | he
  · rw [List.mem_flatMap] at he
    obtain ⟨c, _, hc⟩ := he
    exact busOk_write_cmd s c e hc
  · by_cases h72 : s.width = 72
    · simp only [h72, beq_self_eq_true, if_true, List.mem_append] at he
      rcases he with he | he
      · exact busOk_write_cmd s _ e he
      · exact busOk_write_cmd s _ e he
    · simp [h72] at he
  · exact busOk_show (fill s 0) e he

/-- Helper: every event of a construction trace is well framed for the
constructor's device address. -/
theorem busOk_mkDriver (w h a : Nat) (ev hr : Bool) (e : Event)
    (he : e ∈ (mkDriver w h a ev hr).2) : busOk a e = true := by
  simp only [mkDriver] at he
  rw [List.mem_append, List.mem_append] at he
  rcases he with (he | he) | he
  · by_cases hrr : hr = true
    · simp only [hrr, if_true, List.mem_singleton] at he
      subst he
      rfl
    · simp [hrr] at he
  · exact busOk_poweron _ e he
  · exact busOk_init_display _ e he

/-- C10: every bus write of every driver operation targets the device address
fixed at construction (0x3C when defaulted); command bytes are always framed
with control byte 0x80 and display-data bytes with control byte 0x40, and no
event ever uses another control byte or address. -/
theorem bus_framing_spec (w h a : Nat) (ev hr : Bool) :
    (∀ e ∈ (mkDriver w h a ev hr).2, busOk a e = true) ∧
    (∀ s : DriverState, ∀ c, write_cmd s c = [Event.i2cWrite s.addr 0x80 c]) ∧
    (∀ s : DriverState, ∀ e ∈ write_framebuf s, ∃ b, e = Event.i2cWrite s.addr 0x40 b) ∧
    (∀ s : DriverState, ∀ f c e,
        (e ∈ (show_ s).2 ∨ e ∈ (poweron s).2 ∨ e ∈ (poweroff s).2 ∨
         e ∈ (invert s f).2 ∨ e ∈ (contrast s c).2) → busOk s.addr e = true) ∧
    (∀ e ∈ (mkDriverDefault w h ev hr).2, busOk 0x3C e = true) := by
  refine ⟨busOk_mkDriver w h a ev hr, fun s c => rfl, ?_, ?_, ?_⟩
  · intro s e he
    rw [write_framebuf, List.mem_map] at he
    obtain ⟨b, _, rfl⟩ := he
    exact ⟨b, rfl⟩
  · intro s f c e he
    rcases he with he | he | he | he | he
    · exact busOk_show s e he
    · exact busOk_poweron s e he
    · exact busOk_write_cmd s _ e he
    · exact busOk_write_cmd s _ e he
    · rw [contrast] at he
      simp only [List.mem_append] at he
      rcases he with he | he
      · exact busOk_write_cmd s _ e he
      · exact busOk_write_cmd s _ e he
  · exact busOk_mkDriver w h 0x3C ev hr

end SSD1306

namespace SSD1306

/-- Witness for C10: a concrete `poweroff` event on a default-address driver
state is well framed. -/
theorem bus_framing_spec_witness :
    busOk 0x3C (Event.i2cWrite 0x3C 0x80 0xAE) = true :=
  (bus_framing_spec 128 64 0x3C false false).2.2.2.1
    ⟨2, 8, 1, false, 0x3C, false, [0x40, 7, 9], false⟩ 0 0
    (Event.i2cWrite 0x3C 0x80 0xAE)
    (Or.inr (Or.inr (Or.inl (by decide))))

end SSD1306
